import Mathlib

/-!
Verification of the block challenge backend (arbnode/block_challenge_backend.go).

The Go code is shallowly embedded as executable Lean definitions:

* uint64 values are modeled as `Nat`; every arithmetic operation that can wrap
  in Go is performed through `u64add` / `u64sub`, which reduce modulo 2^64.
* The external collaborators (block store, inbox tracker, dispute contract)
  are modeled as an `Env` of query functions returning `Option` results,
  where `none` is a failed lookup (the Go functions return errors or nil).
* Keccak-256 is modeled as an abstract hash parameter
  `keccak : List Nat -> List Nat`; all claims about hashing concern the exact
  byte sequence fed to it, which the embedding computes concretely.
* The unbounded binary-search loop of `findBatchFromMessageCount` is embedded
  with an explicit fuel parameter; `Res.div` marks fuel exhaustion, so
  statements of termination say the loop never returns `Res.div` once the
  fuel is at least the interval length.
* `SetRange` mutates its receiver in Go; it is embedded as a function
  returning the outcome together with the final backend state, with the field
  stores placed exactly where the Go statements perform them.
-/

/-- Outcome of an embedded Go computation: a returned value, a returned
error, fuel exhaustion of an embedded loop, or an unconditional abort. -/
inductive Res (α : Type) where
  | ok (a : α)
  | err
  | div
  | fatal
  deriving DecidableEq

/-- Modulus of Go uint64 arithmetic. -/
def U64MOD : Nat := 18446744073709551616

/-- Go uint64 addition (wraps modulo 2^64). -/
def u64add (a b : Nat) : Nat := (a + b) % U64MOD

/-- Go uint64 subtraction (wraps modulo 2^64). -/
def u64sub (a b : Nat) : Nat := (a + U64MOD - b % U64MOD) % U64MOD

/-- Bytes of an ASCII string literal, as Go obtains them with a []byte cast. -/
def strBytes (s : String) : List Nat := s.data.map Char.toNat

/-- Embedding of u64ToBe: binary.BigEndian.PutUint64, byte i is byte(x >> (56 - 8i)). -/
def u64ToBe (x : Nat) : List Nat :=
  [x / 2 ^ 56 % 256, x / 2 ^ 48 % 256, x / 2 ^ 40 % 256, x / 2 ^ 32 % 256,
   x / 2 ^ 24 % 256, x / 2 ^ 16 % 256, x / 2 ^ 8 % 256, x % 256]

/-- Embedding of GoGlobalState. The 32-byte block hash is a list of bytes. -/
structure GoGlobalState where
  BlockHash : List Nat
  Batch : Nat
  PosInBatch : Nat
  deriving DecidableEq

/-- Embedding of GoGlobalState.Hash, with Keccak-256 abstracted as `keccak`.
The byte build-up mirrors the appends in the source. -/
def GoGlobalState.Hash (keccak : List Nat → List Nat) (s : GoGlobalState) : List Nat :=
  let data := strBytes "Global state:"
  let data := data ++ s.BlockHash
  let data := data ++ u64ToBe s.Batch
  let data := data ++ u64ToBe s.PosInBatch
  keccak data

/-- The Go zero value of GoGlobalState: zero hash, batch 0, position 0. -/
def zeroGlobalState : GoGlobalState :=
  { BlockHash := List.replicate 32 0, Batch := 0, PosInBatch := 0 }

/-- Batch metadata as used by the backend: the cumulative message count. -/
structure BatchMetadata where
  MessageCount : Nat
  deriving DecidableEq

/-- A block of the external block store: its number and its hash. -/
structure Block where
  number : Nat
  hash : List Nat
  deriving DecidableEq

/-- External collaborators of the backend: the inbox tracker metadata query
and the block store queries. `none` models a failed or absent lookup. -/
structure Env where
  GetBatchMetadata : Nat → Option BatchMetadata
  GetBlockByNumber : Nat → Option Block
  GetBlockByHash : List Nat → Option Block

/-- Embedding of the mutable fields of BlockChallengeBackend. -/
structure BlockChallengeBackend where
  startBlock : Nat
  startPosition : Nat
  endPosition : Nat
  startGs : GoGlobalState
  endGs : GoGlobalState
  tooFarStartsAtPosition : Nat
  deriving DecidableEq

/-- Embedding of NewBlockChallengeBackend. The contract reads of the start
and end global states are passed in already decoded; every check appears in
source order with the source error messages. -/
def NewBlockChallengeBackend (env : Env) (startGs endGs : GoGlobalState) :
    Except String BlockChallengeBackend :=
  if startGs.PosInBatch ≠ 0 then
    Except.error "challenge started misaligned with batch boundary"
  else
    match env.GetBlockByHash startGs.BlockHash with
    | none => Except.error "failed to find start block"
    | some startBlock =>
      match (if 0 < startGs.Batch then
               match env.GetBatchMetadata (startGs.Batch - 1) with
               | none => Except.error "failed to get challenge start batch metadata"
               | some m => Except.ok m
             else Except.ok { MessageCount := 0 } : Except String BatchMetadata) with
      | Except.error e => Except.error e
      | Except.ok startBatchMeta =>
        if startBatchMeta.MessageCount ≠ startBlock.number then
          Except.error "start block and start message count are not 1:1"
        else if endGs.PosInBatch ≠ 0 then
          Except.error "challenge ended misaligned with batch boundary"
        else if endGs.Batch ≤ startGs.Batch then
          Except.error "challenge didn't advance batch"
        else
          match env.GetBatchMetadata (endGs.Batch - 1) with
          | none => Except.error "failed to get challenge end batch metadata"
          | some lastBatchMeta =>
            match env.GetBlockByNumber lastBatchMeta.MessageCount with
            | none => Except.error "missing block at end of last challenge batch"
            | some _ =>
              Except.ok
                { startBlock := startBlock.number
                  startPosition := 0
                  endPosition := 18446744073709551615
                  startGs := startGs
                  endGs := endGs
                  tooFarStartsAtPosition :=
                    u64add (u64sub lastBatchMeta.MessageCount startBlock.number) 1 }

/-- Embedding of the binary-search loop body of findBatchFromMessageCount,
with explicit fuel. All index arithmetic is uint64 arithmetic. -/
def findBatchLoop (meta : Nat → Option BatchMetadata) (msgCount low high fuel : Nat) :
    Res Nat :=
  match fuel with
  | 0 => Res.div
  | fuel + 1 =>
    let mid := (u64add low high) / 2
    match meta mid with
    | none => Res.err
    | some batchMeta =>
      if batchMeta.MessageCount < msgCount then
        findBatchLoop meta msgCount (u64add mid 1) high fuel
      else if batchMeta.MessageCount = msgCount then
        Res.ok mid
      else if mid = low then
        Res.ok mid
      else
        findBatchLoop meta msgCount low mid fuel

/-- Embedding of findBatchFromMessageCount: the zero special case, the bound
setup from the stored global states, and the loop. -/
def findBatchFromMessageCount (b : BlockChallengeBackend)
    (meta : Nat → Option BatchMetadata) (msgCount fuel : Nat) : Res Nat :=
  if msgCount = 0 then Res.ok 0
  else if b.endGs.PosInBatch = 0 then
    if b.endGs.Batch = 0 then Res.err
    else findBatchLoop meta msgCount b.startGs.Batch (b.endGs.Batch - 1) fuel
  else findBatchLoop meta msgCount b.startGs.Batch b.endGs.Batch fuel

/-- Machine status code emitted for a finished step. -/
def STATUS_FINISHED : Nat := 1

/-- Machine status code emitted for a step past the end of real history. -/
def STATUS_TOO_FAR : Nat := 3

/-- Embedding of getInfoAtStep. -/
def getInfoAtStep (b : BlockChallengeBackend) (env : Env) (position fuel : Nat) :
    Res (GoGlobalState × Nat) :=
  if b.tooFarStartsAtPosition ≤ position then
    Res.ok (zeroGlobalState, STATUS_TOO_FAR)
  else
    match env.GetBlockByNumber (u64add b.startBlock position) with
    | none => Res.err
    | some block =>
      match findBatchFromMessageCount b env.GetBatchMetadata
              (u64add b.startBlock position) fuel with
      | Res.err => Res.err
      | Res.div => Res.div
      | Res.fatal => Res.fatal
      | Res.ok batch =>
        if 0 < batch then
          match env.GetBatchMetadata (batch - 1) with
          | none => Res.err
          | some prevBatchMeta =>
            if u64add b.startBlock position ≤ prevBatchMeta.MessageCount then
              Res.err
            else
              Res.ok ({ BlockHash := block.hash
                        Batch := batch
                        PosInBatch :=
                          u64add b.startBlock position - prevBatchMeta.MessageCount },
                      STATUS_FINISHED)
        else
          Res.ok ({ BlockHash := block.hash
                    Batch := batch
                    PosInBatch := u64add b.startBlock position },
                  STATUS_FINISHED)

/-- Embedding of SetRange. The result pairs the returned outcome with the
final backend state; the two field stores appear exactly where the Go
assignments are, after both sub-queries have succeeded. -/
def SetRange (b : BlockChallengeBackend) (env : Env) (start end_ fuel : Nat) :
    Res Unit × BlockChallengeBackend :=
  if b.startPosition = start ∧ b.endPosition = end_ then
    (Res.ok (), b)
  else
    match getInfoAtStep b env start fuel with
    | Res.err => (Res.err, b)
    | Res.div => (Res.div, b)
    | Res.fatal => (Res.fatal, b)
    | Res.ok (newStartGs, _) =>
      match getInfoAtStep b env end_ fuel with
      | Res.err => (Res.err, b)
      | Res.div => (Res.div, b)
      | Res.fatal => (Res.fatal, b)
      | Res.ok (newEndGs, endStatus) =>
        let b1 := { b with startGs := newStartGs }
        let b2 := if endStatus = STATUS_FINISHED then { b1 with endGs := newEndGs } else b1
        (Res.ok (), b2)

/-- Embedding of GetHashAtStep. The unknown-status branch aborts in Go;
that is `Res.fatal` here. -/
def GetHashAtStep (b : BlockChallengeBackend) (env : Env)
    (keccak : List Nat → List Nat) (position fuel : Nat) : Res (List Nat) :=
  match getInfoAtStep b env position fuel with
  | Res.err => Res.err
  | Res.div => Res.div
  | Res.fatal => Res.fatal
  | Res.ok (gs, status) =>
    if status = STATUS_FINISHED then
      let data := strBytes "Block state:"
      let data := data ++ GoGlobalState.Hash keccak gs
      Res.ok (keccak data)
    else if status = STATUS_TOO_FAR then
      Res.ok (keccak (strBytes "Block state, too far:"))
    else
      Res.fatal

/-- Independent big-endian byte encoding (most significant byte first),
written from the wire-format description, not from the source. -/
def beBytes : Nat → Nat → List Nat
  | 0, _ => []
  | n + 1, x => beBytes n (x / 256) ++ [x % 256]

/-- ASCII codes of the tag of a global-state hash input. -/
def globalStateTagBytes : List Nat :=
  [71, 108, 111, 98, 97, 108, 32, 115, 116, 97, 116, 101, 58]

/-- ASCII codes of the tag of a finished block-state hash input. -/
def blockStateTagBytes : List Nat :=
  [66, 108, 111, 99, 107, 32, 115, 116, 97, 116, 101, 58]

/-- ASCII codes of the full too-far block-state hash input. -/
def blockStateTooFarTagBytes : List Nat :=
  [66, 108, 111, 99, 107, 32, 115, 116, 97, 116, 101, 44, 32, 116, 111, 111,
   32, 102, 97, 114, 58]

/-- A concrete consistent environment: cumulative batch counts 5, 10, 15 for
batches 0, 1, 2; blocks 0..15 exist, block n has hash replicate 32 (n+1);
the hash replicate 32 1 resolves to block 0. -/
def sampleEnv : Env where
  GetBatchMetadata := fun i => if i ≤ 2 then some { MessageCount := 5 * i + 5 } else none
  GetBlockByNumber := fun n => if n ≤ 15 then some { number := n, hash := List.replicate 32 (n + 1) } else none
  GetBlockByHash := fun h => if h = List.replicate 32 1 then some { number := 0, hash := List.replicate 32 1 } else none

/-- The challenge start state of the sample scenario: batch 0, position 0. -/
def sampleStartGs : GoGlobalState :=
  { BlockHash := List.replicate 32 1, Batch := 0, PosInBatch := 0 }

/-- The challenge end state of the sample scenario: batch 3, position 0. -/
def sampleEndGs : GoGlobalState :=
  { BlockHash := List.replicate 32 16, Batch := 3, PosInBatch := 0 }

/-- The backend produced for the sample scenario, with the too-far boundary
at 15 - 0 + 1 = 16 and the initial position range (0, 2^64 - 1). -/
def sampleBackend : BlockChallengeBackend :=
  { startBlock := 0
    startPosition := 0
    endPosition := 18446744073709551615
    startGs := sampleStartGs
    endGs := sampleEndGs
    tooFarStartsAtPosition := 16 }

/-- Sample environment whose block store has lost every block. -/
def failBlockEnv : Env :=
  { sampleEnv with GetBlockByNumber := fun _ => none }

/-- Sample environment reporting different block hashes (replicate 32 (n+2)). -/
def altHashEnv : Env :=
  { sampleEnv with
    GetBlockByNumber := fun n =>
      if n ≤ 15 then some { number := n, hash := List.replicate 32 (n + 2) } else none }

/-- Sample environment where only block 1 is available. -/
def endMissingEnv : Env :=
  { sampleEnv with
    GetBlockByNumber := fun n =>
      if n = 1 then some { number := 1, hash := List.replicate 32 2 } else none }

/-- Sample environment whose start hash resolves to block number 5. -/
def badStartEnv : Env :=
  { sampleEnv with
    GetBlockByHash := fun h =>
      if h = List.replicate 32 1 then some { number := 5, hash := List.replicate 32 1 } else none }

/-- Constant batch metadata: every batch ends at cumulative count 5
(batches 1, 2, 3 are empty). Non-decreasing. -/
def dupMeta : Nat → Option BatchMetadata := fun _ => some { MessageCount := 5 }

/-- A backend whose search range is batches 0 to 3 (end batch 4, aligned). -/
def dupBackend : BlockChallengeBackend :=
  { startBlock := 0
    startPosition := 0
    endPosition := 0
    startGs := { BlockHash := List.replicate 32 1, Batch := 0, PosInBatch := 0 }
    endGs := { BlockHash := List.replicate 32 1, Batch := 4, PosInBatch := 0 }
    tooFarStartsAtPosition := 0 }

/-- Strictly increasing batch metadata: batch i ends at count 5i + 5. -/
def growMeta : Nat → Option BatchMetadata := fun i => some { MessageCount := 5 * i + 5 }

/-- Batch metadata that is 0 at batch 0 and 1 everywhere else. -/
def divMeta : Nat → Option BatchMetadata :=
  fun i => some { MessageCount := if i = 0 then 0 else 1 }

/-- Splitting lemma for getInfoAtStep: a successful call is either the
too-far sentinel or a finished step. -/
lemma getInfoAtStep_cases (b : BlockChallengeBackend) (env : Env) (pos fuel : Nat)
    (gs : GoGlobalState) (st : Nat)
    (h : getInfoAtStep b env pos fuel = Res.ok (gs, st)) :
    (b.tooFarStartsAtPosition ≤ pos ∧ gs = zeroGlobalState ∧ st = STATUS_TOO_FAR) ∨
    (pos < b.tooFarStartsAtPosition ∧ st = STATUS_FINISHED) := by
  unfold getInfoAtStep at h
  split at h
  · rename_i hT
    injection h with h
    injection h with ha hb
    exact Or.inl ⟨hT, ha.symm, hb.symm⟩
  · rename_i hT
    right
    refine ⟨Nat.lt_of_not_le hT, ?_⟩
    split at h
    · exact Res.noConfusion h
    · split at h
      · exact Res.noConfusion h
      · exact Res.noConfusion h
      · exact Res.noConfusion h
      · split at h
        · split at h
          · exact Res.noConfusion h
          · split at h
            · exact Res.noConfusion h
            · injection h with h
              injection h with _ hb
              exact hb.symm
        · injection h with h
          injection h with _ hb
          exact hb.symm

/-- C7: getInfoAtStep returns the too-far status with the zero global state
(and no error) for every position at or past the too-far boundary, for any
environment; for any position strictly below the boundary a successful call
returns the finished status. -/
theorem getInfoAtStep_boundary (b : BlockChallengeBackend) (env : Env)
    (pos fuel : Nat) (gs : GoGlobalState) (st : Nat) :
    (b.tooFarStartsAtPosition ≤ pos →
      getInfoAtStep b env pos fuel = Res.ok (zeroGlobalState, STATUS_TOO_FAR)) ∧
    (pos < b.tooFarStartsAtPosition →
      getInfoAtStep b env pos fuel = Res.ok (gs, st) → st = STATUS_FINISHED) := by
  constructor
  · intro hT
    unfold getInfoAtStep
    rw [if_pos hT]
  · intro hlt h
    rcases getInfoAtStep_cases b env pos fuel gs st h with ⟨h1, _, _⟩ | ⟨_, h2⟩
    · omega
    · exact h2

/-- Witness for C7: in the sample scenario the boundary is 16; position 16
is too far for both a live and a dead block store, and position 15 resolves
to a finished step of batch 2, position 5. -/
theorem getInfoAtStep_boundary_witness :
    getInfoAtStep sampleBackend sampleEnv 16 10 = Res.ok (zeroGlobalState, STATUS_TOO_FAR) ∧
    getInfoAtStep sampleBackend failBlockEnv 16 10 = Res.ok (zeroGlobalState, STATUS_TOO_FAR) ∧
    getInfoAtStep sampleBackend sampleEnv 15 10 =
      Res.ok ({ BlockHash := List.replicate 32 16, Batch := 2, PosInBatch := 5 }, 1) ∧
    (1 : Nat) = STATUS_FINISHED := by
  refine ⟨?_, ?_, by decide, ?_⟩
  · exact (getInfoAtStep_boundary sampleBackend sampleEnv 16 10 zeroGlobalState 0).1 (by decide)
  · exact (getInfoAtStep_boundary sampleBackend failBlockEnv 16 10 zeroGlobalState 0).1 (by decide)
  · exact (getInfoAtStep_boundary sampleBackend sampleEnv 15 10
      { BlockHash := List.replicate 32 16, Batch := 2, PosInBatch := 5 } 1).2
      (by decide) (by decide)

/-- C3: if either getInfoAtStep sub-query of a SetRange call returns an
error, the final backend state is exactly the state before the call. -/
theorem setRange_atomic_on_failure (b : BlockChallengeBackend) (env : Env)
    (start end_ fuel : Nat)
    (h : getInfoAtStep b env start fuel = Res.err ∨
         getInfoAtStep b env end_ fuel = Res.err) :
    (SetRange b env start end_ fuel).2 = b := by
  unfold SetRange
  split
  · rfl
  · rcases h with h | h
    · rw [h]
    · cases h1 : getInfoAtStep b env start fuel with
      | ok p =>
        obtain ⟨gs, st⟩ := p
        rw [h]
      | err => rfl
      | div => rfl
      | fatal => rfl

/-- Witness for C3: the second sub-query fails (block 2 is missing), the
first succeeds, and the stored range is untouched. -/
theorem setRange_atomic_on_failure_witness :
    (SetRange sampleBackend endMissingEnv 1 2 10).2 = sampleBackend ∧
    getInfoAtStep sampleBackend endMissingEnv 2 10 = Res.err ∧
    getInfoAtStep sampleBackend endMissingEnv 1 10 =
      Res.ok ({ BlockHash := List.replicate 32 2, Batch := 0, PosInBatch := 1 }, 1) := by
  refine ⟨?_, by decide, by decide⟩
  exact setRange_atomic_on_failure sampleBackend endMissingEnv 1 2 10 (Or.inr (by decide))

/-- C4: when both sub-queries of a non-trivial SetRange call succeed, the
new start global state is committed unconditionally and the new end global
state is committed exactly when the end status is finished; otherwise the
previous end global state is kept. -/
theorem setRange_commit_policy (b : BlockChallengeBackend) (env : Env)
    (start end_ fuel : Nat) (sgs egs : GoGlobalState) (st1 est : Nat)
    (hguard : ¬(b.startPosition = start ∧ b.endPosition = end_))
    (h1 : getInfoAtStep b env start fuel = Res.ok (sgs, st1))
    (h2 : getInfoAtStep b env end_ fuel = Res.ok (egs, est)) :
    SetRange b env start end_ fuel =
      (Res.ok (), { b with startGs := sgs,
                           endGs := if est = STATUS_FINISHED then egs else b.endGs }) := by
  unfold SetRange
  rw [if_neg hguard, h1, h2]
  by_cases hst : est = STATUS_FINISHED
  · simp [hst]
  · simp [hst]

/-- Witness for C4: narrowing the sample backend to (1, 20) where step 20 is
past the too-far boundary commits the new start state and keeps the old end
state. -/
theorem setRange_commit_policy_witness :
    SetRange sampleBackend sampleEnv 1 20 10 =
      (Res.ok (), { sampleBackend with
                      startGs := { BlockHash := List.replicate 32 2, Batch := 0, PosInBatch := 1 },
                      endGs := if (3 : Nat) = STATUS_FINISHED then zeroGlobalState
                               else sampleBackend.endGs }) := by
  exact setRange_commit_policy sampleBackend sampleEnv 1 20 10
    { BlockHash := List.replicate 32 2, Batch := 0, PosInBatch := 1 } zeroGlobalState 1 3
    (by decide) (by decide) (by decide)

/-- C1 (code bug, demonstration): a SetRange(1, 2) call on the sample
backend succeeds, yet the stored startPosition and endPosition keep their
construction-time values 0 and 2^64 - 1; no assignment to them exists in
SetRange. -/
theorem setRange_does_not_update_positions :
    (SetRange sampleBackend sampleEnv 1 2 10).1 = Res.ok () ∧
    (SetRange sampleBackend sampleEnv 1 2 10).2.startPosition = 0 ∧
    (SetRange sampleBackend sampleEnv 1 2 10).2.endPosition = 18446744073709551615 ∧
    (0 : Nat) ≠ 1 ∧ (18446744073709551615 : Nat) ≠ 2 := by
  decide

/-- C2 (code bug, demonstration): after a successful SetRange(1, 2), an
identical second SetRange(1, 2) is not a guarded no-op: the stale guard
misses, both sub-queries are issued again, so the second call fails when the
block store fails, and recommits a different start state when the block
store answers differently. -/
theorem setRange_second_call_not_noop :
    (SetRange sampleBackend sampleEnv 1 2 10).1 = Res.ok () ∧
    (SetRange ((SetRange sampleBackend sampleEnv 1 2 10).2) failBlockEnv 1 2 10).1 = Res.err ∧
    (SetRange ((SetRange sampleBackend sampleEnv 1 2 10).2) altHashEnv 1 2 10).2.startGs ≠
      (SetRange sampleBackend sampleEnv 1 2 10).2.startGs := by
  decide

/-- C10: when the start global state has batch 0, the implicit previous
cumulative count is the zero value 0, so construction requires the start
block number to be 0; a nonzero start block number fails with the 1:1
consistency error, and success implies the number is 0. -/
theorem newBackend_batch0_requires_block0 (env : Env) (startGs endGs : GoGlobalState)
    (blk : Block) (bOut : BlockChallengeBackend)
    (h0 : startGs.Batch = 0)
    (hpos : startGs.PosInBatch = 0)
    (hblk : env.GetBlockByHash startGs.BlockHash = some blk) :
    (blk.number ≠ 0 →
      NewBlockChallengeBackend env startGs endGs =
        Except.error "start block and start message count are not 1:1") ∧
    (NewBlockChallengeBackend env startGs endGs = Except.ok bOut → blk.number = 0) := by
  unfold NewBlockChallengeBackend
  rw [if_neg (by simp [hpos]), hblk, h0]
  rw [if_neg (Nat.lt_irrefl 0)]
  dsimp only
  constructor
  · intro hne
    rw [if_pos (by simpa using Ne.symm hne)]
  · intro hok
    by_cases hn : blk.number = 0
    · exact hn
    · rw [if_pos (by simpa using Ne.symm hn)] at hok
      exact Except.noConfusion hok

/-- Witness for C10: with the start hash resolving to block 5 the
construction fails with the 1:1 error; with it resolving to block 0 the
construction succeeds and the start block number is 0. -/
theorem newBackend_batch0_requires_block0_witness :
    NewBlockChallengeBackend badStartEnv sampleStartGs sampleEndGs =
      Except.error "start block and start message count are not 1:1" ∧
    NewBlockChallengeBackend sampleEnv sampleStartGs sampleEndGs = Except.ok sampleBackend ∧
    (Block.mk 0 (List.replicate 32 1)).number = 0 := by
  refine ⟨?_, rfl, ?_⟩
  · exact (newBackend_batch0_requires_block0 badStartEnv sampleStartGs sampleEndGs
      (Block.mk 5 (List.replicate 32 1)) sampleBackend rfl rfl rfl).1 (by decide)
  · exact (newBackend_batch0_requires_block0 sampleEnv sampleStartGs sampleEndGs
      (Block.mk 0 (List.replicate 32 1)) sampleBackend rfl rfl rfl).2 rfl

/-- The shift-and-mask byte extraction of the source equals the recursive
big-endian base-256 encoding on 8 bytes. -/
lemma u64ToBe_eq_beBytes (x : Nat) : u64ToBe x = beBytes 8 x := by
  show u64ToBe x = beBytes (7 + 1) x
  rw [beBytes]
  show _ = beBytes (6 + 1) (x / 256) ++ _
  rw [beBytes]
  show _ = (beBytes (5 + 1) (x / 256 / 256) ++ _) ++ _
  rw [beBytes]
  show _ = ((beBytes (4 + 1) (x / 256 / 256 / 256) ++ _) ++ _) ++ _
  rw [beBytes]
  show _ = (((beBytes (3 + 1) (x / 256 / 256 / 256 / 256) ++ _) ++ _) ++ _) ++ _
  rw [beBytes]
  show _ = ((((beBytes (2 + 1) (x / 256 / 256 / 256 / 256 / 256) ++ _) ++ _) ++ _) ++ _) ++ _
  rw [beBytes]
  show _ = (((((beBytes (1 + 1) (x / 256 / 256 / 256 / 256 / 256 / 256) ++ _) ++ _) ++ _) ++ _) ++ _) ++ _
  rw [beBytes]
  show _ = ((((((beBytes (0 + 1) (x / 256 / 256 / 256 / 256 / 256 / 256 / 256) ++ _) ++ _) ++ _) ++ _) ++ _) ++ _) ++ _
  rw [beBytes, beBytes]
  simp only [u64ToBe, Nat.div_div_eq_div_mul, List.nil_append, List.cons_append,
    List.append_assoc, List.singleton_append]
  norm_num

/-- C8: the global-state hash is the abstract Keccak-256 applied to exactly
the ASCII tag of "Global state:" followed by the 32-byte block hash, the
8-byte big-endian batch, and the 8-byte big-endian position in batch. -/
theorem globalStateHash_bytes (keccak : List Nat → List Nat) (s : GoGlobalState)
    (h32 : s.BlockHash.length = 32) :
    GoGlobalState.Hash keccak s =
      keccak (((globalStateTagBytes ++ s.BlockHash) ++ beBytes 8 s.Batch) ++
        beBytes 8 s.PosInBatch) := by
  show keccak (((strBytes "Global state:" ++ s.BlockHash) ++ u64ToBe s.Batch) ++
    u64ToBe s.PosInBatch) = _
  rw [u64ToBe_eq_beBytes, u64ToBe_eq_beBytes,
    show strBytes "Global state:" = globalStateTagBytes from by decide]

/-- Witness for C8 at a concrete 32-byte hash, batch 5, position 7, with the
identity in place of the abstract Keccak-256. -/
theorem globalStateHash_bytes_witness :
    GoGlobalState.Hash (fun l => l)
        { BlockHash := List.replicate 32 1, Batch := 5, PosInBatch := 7 } =
      ((globalStateTagBytes ++ List.replicate 32 1) ++ beBytes 8 5) ++ beBytes 8 7 ∧
    (List.replicate 32 (1 : Nat)).length = 32 := by
  refine ⟨?_, by decide⟩
  exact globalStateHash_bytes (fun l => l)
    { BlockHash := List.replicate 32 1, Batch := 5, PosInBatch := 7 } (by decide)

/-- C9: whenever getInfoAtStep succeeds its status is finished or too far;
in the finished case GetHashAtStep hashes the tag of "Block state:" followed
by the global-state hash of the step, and in the too-far case it hashes
exactly the literal "Block state, too far:", independently of the position. -/
theorem getHashAtStep_bytes (b : BlockChallengeBackend) (env : Env)
    (keccak : List Nat → List Nat) (pos fuel : Nat) (gs : GoGlobalState) (st : Nat)
    (h : getInfoAtStep b env pos fuel = Res.ok (gs, st)) :
    (st = STATUS_FINISHED ∨ st = STATUS_TOO_FAR) ∧
    (st = STATUS_FINISHED →
      GetHashAtStep b env keccak pos fuel =
        Res.ok (keccak (blockStateTagBytes ++ GoGlobalState.Hash keccak gs))) ∧
    (st = STATUS_TOO_FAR →
      GetHashAtStep b env keccak pos fuel = Res.ok (keccak blockStateTooFarTagBytes)) := by
  refine ⟨?_, ?_, ?_⟩
  · rcases getInfoAtStep_cases b env pos fuel gs st h with ⟨_, _, h3⟩ | ⟨_, h2⟩
    · exact Or.inr h3
    · exact Or.inl h2
  · intro hst
    unfold GetHashAtStep
    rw [h]
    dsimp only
    rw [if_pos hst]
    show Res.ok (keccak (strBytes "Block state:" ++ GoGlobalState.Hash keccak gs)) = _
    rw [show strBytes "Block state:" = blockStateTagBytes from by decide]
  · intro hst
    unfold GetHashAtStep
    rw [h]
    dsimp only
    rw [if_neg (by rw [hst]; decide), if_pos hst,
      show strBytes "Block state, too far:" = blockStateTooFarTagBytes from by decide]

/-- Witness for C9: in the sample scenario with the identity for the
abstract Keccak-256, step 16 hashes the too-far literal and step 15 hashes
the tagged global-state hash of batch 2, position 5. -/
theorem getHashAtStep_bytes_witness :
    GetHashAtStep sampleBackend sampleEnv (fun l => l) 16 10 =
      Res.ok blockStateTooFarTagBytes ∧
    GetHashAtStep sampleBackend sampleEnv (fun l => l) 15 10 =
      Res.ok (blockStateTagBytes ++ GoGlobalState.Hash (fun l => l)
        { BlockHash := List.replicate 32 16, Batch := 2, PosInBatch := 5 }) := by
  constructor
  · exact (getHashAtStep_bytes sampleBackend sampleEnv (fun l => l) 16 10
      zeroGlobalState 3 (by decide)).2.2 rfl
  · exact (getHashAtStep_bytes sampleBackend sampleEnv (fun l => l) 15 10
      { BlockHash := List.replicate 32 16, Batch := 2, PosInBatch := 5 } 1 (by decide)).2.1 rfl

/-- One-step unfolding of the binary-search loop. -/
lemma findBatchLoop_succ (meta : Nat → Option BatchMetadata) (msgCount low high fuel : Nat) :
    findBatchLoop meta msgCount low high (fuel + 1) =
      match meta ((u64add low high) / 2) with
      | none => Res.err
      | some batchMeta =>
        if batchMeta.MessageCount < msgCount then
          findBatchLoop meta msgCount (u64add ((u64add low high) / 2) 1) high fuel
        else if batchMeta.MessageCount = msgCount then
          Res.ok ((u64add low high) / 2)
        else if (u64add low high) / 2 = low then
          Res.ok ((u64add low high) / 2)
        else
          findBatchLoop meta msgCount low ((u64add low high) / 2) fuel := rfl

/-- The loop cannot exhaust its fuel when the upper bound satisfies the
search invariant, the bounds are ordered, the upper bound stays below 2^63
(so the uint64 midpoint computation cannot wrap), and the fuel is at least
the interval length: every iteration either returns or strictly shrinks the
interval. -/
lemma findBatchLoop_no_div (meta : Nat → Option BatchMetadata) (msgCount : Nat) :
    ∀ fuel low high, low ≤ high → high < 9223372036854775808 →
      (∀ bm, meta high = some bm → msgCount ≤ bm.MessageCount) →
      high + 1 - low ≤ fuel →
      findBatchLoop meta msgCount low high fuel ≠ Res.div := by
  intro fuel
  induction fuel with
  | zero =>
    intro low high hlh _ _ hfuel
    omega
  | succ fuel ih =>
    intro low high hlh hb hhigh hfuel
    rw [findBatchLoop_succ]
    have hadd : u64add low high = low + high := by
      unfold u64add U64MOD
      exact Nat.mod_eq_of_lt (by omega)
    rw [hadd]
    have hmid1 : low ≤ (low + high) / 2 := by omega
    have hmid2 : (low + high) / 2 ≤ high := by omega
    cases hm : meta ((low + high) / 2) with
    | none => simp
    | some bm =>
      dsimp only
      by_cases h1 : bm.MessageCount < msgCount
      · rw [if_pos h1]
        have hne : (low + high) / 2 ≠ high := by
          intro he
          have := hhigh bm (he ▸ hm)
          omega
        have hadd1 : u64add ((low + high) / 2) 1 = (low + high) / 2 + 1 := by
          unfold u64add U64MOD
          exact Nat.mod_eq_of_lt (by omega)
        rw [hadd1]
        exact ih ((low + high) / 2 + 1) high (by omega) hb hhigh (by omega)
      · rw [if_neg h1]
        by_cases h2 : bm.MessageCount = msgCount
        · rw [if_pos h2]
          simp
        · rw [if_neg h2]
          by_cases h3 : (low + high) / 2 = low
          · rw [if_pos h3]
            simp
          · rw [if_neg h3]
            exact ih low ((low + high) / 2) (by omega) (by omega)
              (by
                intro bm2 hm2
                rw [hm] at hm2
                injection hm2 with h4
                rw [← h4]
                omega)
              (by omega)

/-- C6 counterexample helper: at low 1 and high 2^64 - 1 the uint64 midpoint
computation wraps to 0, the metadata at 0 is below the target, and the low
bound is reset to 1, so the loop state repeats forever. -/
lemma findBatchLoop_divMeta_div :
    ∀ fuel, findBatchLoop divMeta 1 1 18446744073709551615 fuel = Res.div := by
  intro fuel
  induction fuel with
  | zero => rfl
  | succ n ih =>
    exact (rfl : findBatchLoop divMeta 1 1 18446744073709551615 (n + 1) =
      findBatchLoop divMeta 1 1 18446744073709551615 n).trans ih

/-- C6 (amended): the binary-search loop terminates for every input
satisfying its invariant, provided the upper bound is below 2^63 so that the
uint64 midpoint computation cannot wrap: with fuel at least the interval
length the loop never exhausts it, including the degenerate intervals
high = low and high = low + 1. -/
theorem findBatchLoop_terminates_bounded (meta : Nat → Option BatchMetadata)
    (msgCount fuel low high : Nat)
    (hlh : low ≤ high) (hb : high < 9223372036854775808)
    (hhigh : ∀ bm, meta high = some bm → msgCount ≤ bm.MessageCount)
    (hfuel : high + 1 - low ≤ fuel) :
    findBatchLoop meta msgCount low high fuel ≠ Res.div :=
  findBatchLoop_no_div meta msgCount fuel low high hlh hb hhigh hfuel

/-- Witness for C6 on the degenerate intervals high = low and
high = low + 1, with exactly the minimal fuel. -/
theorem findBatchLoop_terminates_bounded_witness :
    findBatchLoop growMeta 3 3 3 1 ≠ Res.div ∧
    findBatchLoop growMeta 3 3 4 2 ≠ Res.div := by
  constructor
  · exact findBatchLoop_terminates_bounded growMeta 3 1 3 3 (by decide) (by decide)
      (by
        intro bm hbm
        simp only [growMeta, Option.some.injEq] at hbm
        rw [← hbm]
        decide)
      (by decide)
  · exact findBatchLoop_terminates_bounded growMeta 3 2 3 4 (by decide) (by decide)
      (by
        intro bm hbm
        simp only [growMeta, Option.some.injEq] at hbm
        rw [← hbm]
        decide)
      (by decide)

/-- C6 counterexample: at low 1, high 2^64 - 1 the invariant of the claim
holds (the metadata is non-decreasing, the count at the high bound is at
least the target 1, the count at low - 1 = 0 is 0 which is below the
target), yet the loop exhausts a fuel of 2^64, far above the interval
length: the wrapped uint64 midpoint 0 sends the state back to itself each
iteration, so the loop never terminates. -/
theorem findBatchLoop_overflow_divergence :
    divMeta 0 = some { MessageCount := 0 } ∧
    divMeta 18446744073709551615 = some { MessageCount := 1 } ∧
    (1 : Nat) ≤ 18446744073709551615 ∧
    18446744073709551615 + 1 - 1 ≤ 18446744073709551616 ∧
    findBatchLoop divMeta 1 1 18446744073709551615 18446744073709551616 = Res.div := by
  refine ⟨by decide, by decide, by decide, by decide, findBatchLoop_divMeta_div _⟩

/-- On metadata that is total and strictly increasing on the interval, the
loop returns exactly the least index L of the interval whose count reaches
the target. -/
lemma findBatchLoop_strict (meta : Nat → Option BatchMetadata) (f : Nat → Nat)
    (msgCount L : Nat) :
    ∀ fuel low high,
      low ≤ high → high < 9223372036854775808 →
      (∀ i, low ≤ i → i ≤ high → meta i = some { MessageCount := f i }) →
      (∀ i j, low ≤ i → i < j → j ≤ high → f i < f j) →
      low ≤ L → L ≤ high → msgCount ≤ f L →
      (∀ j, low ≤ j → j < L → f j < msgCount) →
      high + 1 - low ≤ fuel →
      findBatchLoop meta msgCount low high fuel = Res.ok L := by
  intro fuel
  induction fuel with
  | zero =>
    intro low high hlh _ _ _ _ _ _ _ hfuel
    omega
  | succ fuel ih =>
    intro low high hlh hb htot hstr hL1 hL2 hLc hmin hfuel
    rw [findBatchLoop_succ]
    have hadd : u64add low high = low + high := by
      unfold u64add U64MOD
      exact Nat.mod_eq_of_lt (by omega)
    rw [hadd]
    have hmid1 : low ≤ (low + high) / 2 := by omega
    have hmid2 : (low + high) / 2 ≤ high := by omega
    rw [htot ((low + high) / 2) hmid1 hmid2]
    dsimp only
    by_cases h1 : f ((low + high) / 2) < msgCount
    · rw [if_pos h1]
      have hmidL : (low + high) / 2 < L := by
        by_contra hc
        push_neg at hc
        have hfle : f L ≤ f ((low + high) / 2) := by
          rcases Nat.eq_or_lt_of_le hc with he | hlt
          · rw [he]
          · exact Nat.le_of_lt (hstr L ((low + high) / 2) hL1 hlt hmid2)
        omega
      have hadd1 : u64add ((low + high) / 2) 1 = (low + high) / 2 + 1 := by
        unfold u64add U64MOD
        exact Nat.mod_eq_of_lt (by omega)
      rw [hadd1]
      exact ih ((low + high) / 2 + 1) high (by omega) hb
        (fun i hi1 hi2 => htot i (by omega) hi2)
        (fun i j hi1 hij hj => hstr i j (by omega) hij hj)
        (by omega) hL2 hLc
        (fun j hj1 hj2 => hmin j (by omega) hj2)
        (by omega)
    · rw [if_neg h1]
      by_cases h2 : f ((low + high) / 2) = msgCount
      · rw [if_pos h2]
        have hLe : L ≤ (low + high) / 2 := by
          by_contra hc
          push_neg at hc
          have := hmin ((low + high) / 2) hmid1 hc
          omega
        have hGe : (low + high) / 2 ≤ L := by
          by_contra hc
          push_neg at hc
          have := hstr L ((low + high) / 2) hL1 hc hmid2
          omega
        rw [show (low + high) / 2 = L by omega]
      · rw [if_neg h2]
        by_cases h3 : (low + high) / 2 = low
        · rw [if_pos h3]
          have hLe : L ≤ (low + high) / 2 := by
            by_contra hc
            push_neg at hc
            have := hmin ((low + high) / 2) hmid1 hc
            omega
          rw [show (low + high) / 2 = L by omega]
        · rw [if_neg h3]
          have hLmid : L ≤ (low + high) / 2 := by
            by_contra hc
            push_neg at hc
            have := hmin ((low + high) / 2) hmid1 hc
            omega
          exact ih low ((low + high) / 2) (by omega) (by omega)
            (fun i hi1 hi2 => htot i hi1 (by omega))
            (fun i j hi1 hij hj => hstr i j hi1 hij (by omega))
            hL1 hLmid hLc hmin (by omega)

/-- C5 (amended): findBatchFromMessageCount returns 0 immediately on a zero
message count; otherwise, on batch metadata that is total and strictly
increasing over the search range (bounds below 2^63), with the count at the
high bound at least the target, it returns exactly the smallest batch index
L of the search range whose cumulative count reaches the target. -/
theorem findBatchFromMessageCount_least_strict (b : BlockChallengeBackend)
    (meta : Nat → Option BatchMetadata) (f : Nat → Nat)
    (msgCount fuel low high L : Nat)
    (hlow : b.startGs.Batch = low)
    (hhigh : (if b.endGs.PosInBatch = 0 then b.endGs.Batch - 1 else b.endGs.Batch) = high)
    (hnz : b.endGs.PosInBatch = 0 → b.endGs.Batch ≠ 0)
    (hlh : low ≤ high) (hb : high < 9223372036854775808)
    (htot : ∀ i, low ≤ i → i ≤ high → meta i = some { MessageCount := f i })
    (hstr : ∀ i j, low ≤ i → i < j → j ≤ high → f i < f j)
    (hL1 : low ≤ L) (hL2 : L ≤ high) (hLc : msgCount ≤ f L)
    (hmin : ∀ j, low ≤ j → j < L → f j < msgCount)
    (hfuel : high + 1 - low ≤ fuel) :
    (msgCount = 0 → findBatchFromMessageCount b meta msgCount fuel = Res.ok 0) ∧
    (msgCount ≠ 0 → findBatchFromMessageCount b meta msgCount fuel = Res.ok L) := by
  constructor
  · intro h0
    unfold findBatchFromMessageCount
    rw [if_pos h0]
  · intro h0
    unfold findBatchFromMessageCount
    rw [if_neg h0]
    by_cases hp : b.endGs.PosInBatch = 0
    · rw [if_pos hp, if_neg (hnz hp), hlow,
        show b.endGs.Batch - 1 = high from by rw [← hhigh, if_pos hp]]
      exact findBatchLoop_strict meta f msgCount L fuel low high hlh hb htot hstr
        hL1 hL2 hLc hmin hfuel
    · rw [if_neg hp, hlow,
        show b.endGs.Batch = high from by rw [← hhigh, if_neg hp]]
      exact findBatchLoop_strict meta f msgCount L fuel low high hlh hb htot hstr
        hL1 hL2 hLc hmin hfuel

/-- Witness for C5 on the sample backend (search range batches 0 to 2) with
strictly increasing counts 5, 10, 15: target 12 yields batch 2, the least
index with count at least 12, and target 0 yields 0 immediately. -/
theorem findBatchFromMessageCount_least_strict_witness :
    (12 ≠ 0 → findBatchFromMessageCount sampleBackend growMeta 12 10 = Res.ok 2) ∧
    ((0 : Nat) = 0 → findBatchFromMessageCount sampleBackend growMeta 0 10 = Res.ok 0) := by
  constructor
  · exact (findBatchFromMessageCount_least_strict sampleBackend growMeta
      (fun i => 5 * i + 5) 12 10 0 2 2 rfl (by decide) (fun _ => by decide)
      (by decide) (by decide)
      (fun i _ _ => rfl) (fun i j _ hij _ => by show 5 * i + 5 < 5 * j + 5; omega)
      (by decide) (by decide) (by decide)
      (fun j _ hj => by show 5 * j + 5 < 12; omega) (by decide)).2
  · exact (findBatchFromMessageCount_least_strict sampleBackend growMeta
      (fun i => 5 * i + 5) 0 10 0 2 0 rfl (by decide) (fun _ => by decide)
      (by decide) (by decide)
      (fun i _ _ => rfl) (fun i j _ hij _ => by show 5 * i + 5 < 5 * j + 5; omega)
      (by decide) (by decide) (by decide)
      (fun j _ hj => by show 5 * j + 5 < 0; omega) (by decide)).1

/-- C5 counterexample: on the constant (hence non-decreasing) metadata with
every cumulative count 5, search range batches 0 to 3, and target 5 (the
count at the high bound reaches the target), the loop answers batch 1, yet
batch 0 of the range already has a count of at least 5 and 0 < 1: the result
is an exact-hit index, not the smallest index with count at least the
target. -/
theorem findBatchFromMessageCount_not_least_counterexample :
    findBatchFromMessageCount dupBackend dupMeta 5 10 = Res.ok 1 ∧
    dupBackend.startGs.Batch = 0 ∧
    (if dupBackend.endGs.PosInBatch = 0 then dupBackend.endGs.Batch - 1
     else dupBackend.endGs.Batch) = 3 ∧
    dupMeta 0 = some { MessageCount := 5 } ∧
    dupMeta 1 = some { MessageCount := 5 } ∧
    dupMeta 2 = some { MessageCount := 5 } ∧
    dupMeta 3 = some { MessageCount := 5 } ∧
    (5 : Nat) ≤ 5 ∧ (0 : Nat) < 1 := by
  decide
